import Mathlib

/-!
Shallow embedding of the TaskPilot frontend observer
(`src/Taskpilot/frontend/src/App.jsx` together with
`src/Taskpilot/frontend/src/components/StatusBar.jsx`).

The observer keeps React state (`goal`, `steps`, `taskState`, `frame`,
`frameSource`, `activeIndex`, `logs`, `priceResults`, `credentialsRequest`,
`credentialsData`) and mutates it from the WebSocket message handler
`ws.onmessage` and from the two user commands `handleSubmit` and
`handleCredentialsSubmit`.  Statuses and the task state are the literal
strings the code uses ("pending", "active", "completed", "failed";
"idle", "running", "completed").  Optional JSON fields are `Option`s;
a missing field (JS `undefined`) and JSON `null` are both `none`.
Message indices are modelled as `Nat`; an index that matches no position
of the steps array behaves exactly like the JS `===` comparison failing
everywhere.
-/

/-- One raw step as received in a `TASK_STARTED` message: an action name
plus the action-specific parameters used by `buildDescription`. -/
structure RawStep where
  action : String
  url : Option String := none
  selector : Option String := none
  text : Option String := none
  amount : Option Int := none
  ms : Option Int := none
deriving DecidableEq

/-- JS string interpolation of a possibly-missing field: `${step.url}`
prints `undefined` when the field is absent. -/
def showOptStr : Option String → String
  | some s => s
  | none => "undefined"

/-- The function `buildDescription` from App.jsx lines 10-19. -/
def buildDescription (step : RawStep) : String :=
  if step.action = "navigate" then "Navigate to " ++ showOptStr step.url
  else if step.action = "click" then "Click " ++ showOptStr step.selector
  else if step.action = "type" then
    "Type \"" ++ showOptStr step.text ++ "\" in " ++ showOptStr step.selector
  else if step.action = "scroll" then
    "Scroll " ++ toString (step.amount.getD 800) ++ "px"
  else if step.action = "wait" then
    "Wait " ++ toString (step.ms.getD 1000) ++ "ms"
  else if step.action = "screenshot" then "Capture screenshot"
  else step.action

/-- A step as stored in the observer's `steps` array: the raw step enriched
with `status`, `description`, `duration_ms` and `error` (App.jsx lines 56-61,
80, 90). -/
structure Step where
  raw : RawStep
  status : String
  description : String
  duration_ms : Option Int
  error : Option String
deriving DecidableEq

/-- The flags of a `CREDENTIALS_REQUIRED` message (truthiness of
`fields.username` / `fields.email` / `fields.password`). -/
structure CredFields where
  username : Bool
  email : Bool
  password : Bool
deriving DecidableEq

/-- The `credentialsData` record with username, email and password. -/
structure CredData where
  username : String
  email : String
  password : String
deriving DecidableEq

/-- Inbound wire messages as dispatched on `message.type` in `ws.onmessage`
(App.jsx lines 49-119).  `other` stands for any unrecognized `type`. -/
inductive Msg where
  | taskStarted (steps : Option (List RawStep))
  | stepStarted (index : Nat)
  | stepCompleted (index : Nat) (duration_ms : Option Int)
  | stepFailed (index : Nat) (duration_ms : Option Int) (error : Option String)
  | taskCompleted
  | browserFrame (image : Option String) (source : Option String)
  | log (entry : String)
  | priceResults (payload : String)
  | credentialsRequired (fields : Option CredFields)
  | other (type : String)
deriving DecidableEq

/-- Outbound messages the observer sends (`START_TASK`,
`CREDENTIALS_PROVIDED`). -/
inductive OutMsg where
  | startTask (goal : String)
  | credentialsProvided (data : CredData)
deriving DecidableEq

/-- The observer's React state. -/
structure ObserverState where
  goal : String
  steps : List Step
  taskState : String
  frame : Option String
  frameSource : Option String
  activeIndex : Option Nat
  logs : List String
  priceResults : Option String
  credentialsRequest : Option CredFields
  credentialsData : CredData
deriving DecidableEq

/-- The initial state set by the `useState` calls (App.jsx lines 22-32). -/
def initState : ObserverState :=
  { goal := ""
    steps := []
    taskState := "idle"
    frame := none
    frameSource := none
    activeIndex := none
    logs := []
    priceResults := none
    credentialsRequest := none
    credentialsData := { username := "", email := "", password := "" } }

/-- Indexed map `prev.map((step, idx) => f(idx, step))` with first index `k`:
the indexed map the three step handlers use on the steps array. -/
def mapWithIdxFrom (f : Nat → Step → Step) : Nat → List Step → List Step
  | _, [] => []
  | k, st :: rest => f k st :: mapWithIdxFrom f (k + 1) rest

/-- Indexed map `prev.map((step, idx) => f(idx, step))`. -/
def mapWithIdx (f : Nat → Step → Step) (l : List Step) : List Step :=
  mapWithIdxFrom f 0 l

/-- Enrichment of a raw plan step on `TASK_STARTED`
(App.jsx lines 56-61). -/
def enrich (step : RawStep) : Step :=
  { raw := step
    status := "pending"
    description := buildDescription step
    duration_ms := none
    error := none }

/-- The expression `message.source || null` (App.jsx line 104): any falsy source
(absent, or the empty string) is stored as `null`. -/
def orNullStr : Option String → Option String
  | some s => if s = "" then none else some s
  | none => none

/-- The per-element update of the `STEP_STARTED` handler (App.jsx
lines 69-72): step `message.index` becomes active, any other step that was
active is reset to pending, all other statuses are kept. -/
def startedUpdate (i idx : Nat) (step : Step) : Step :=
  { step with
    status :=
      if idx = i then "active"
      else if step.status = "active" then "pending"
      else step.status }

/-- The per-element update of the `STEP_COMPLETED` handler (App.jsx
lines 78-82). -/
def completedUpdate (i : Nat) (d : Option Int) (idx : Nat) (step : Step) :
    Step :=
  if idx = i then { step with status := "completed", duration_ms := d }
  else step

/-- The per-element update of the `STEP_FAILED` handler (App.jsx
lines 88-92). -/
def failedUpdate (i : Nat) (d : Option Int) (e : Option String) (idx : Nat)
    (step : Step) : Step :=
  if idx = i then { step with status := "failed", duration_ms := d, error := e }
  else step

/-- The `ws.onmessage` handler (App.jsx lines 49-119), one state update per
message.  The handler only reads and writes observer state; it sends
nothing. -/
def handleMessage (m : Msg) (s : ObserverState) : ObserverState :=
  match m with
  | .taskStarted steps? =>
    let s1 := { s with taskState := "running" }
    match steps? with
    | some rs => { s1 with steps := rs.map enrich, activeIndex := none }
    | none => s1
  | .stepStarted i =>
    { s with steps := mapWithIdx (startedUpdate i) s.steps, activeIndex := some i }
  | .stepCompleted i d =>
    { s with steps := mapWithIdx (completedUpdate i d) s.steps, activeIndex := none }
  | .stepFailed i d e =>
    { s with steps := mapWithIdx (failedUpdate i d e) s.steps, activeIndex := none }
  | .taskCompleted => { s with taskState := "completed" }
  | .browserFrame img src => { s with frame := img, frameSource := orNullStr src }
  | .log entry =>
    { s with logs := s.logs.drop (s.logs.length - 19) ++ [entry] }
  | .priceResults p => { s with priceResults := some p }
  | .credentialsRequired f =>
    { s with credentialsRequest := some (f.getD ⟨false, false, false⟩) }
  | .other _ => s

/-- The command `handleSubmit` (App.jsx lines 124-129): guard on a blank goal and on the
socket being open, then set `taskState` to running and send `START_TASK`.
Returns the new state together with the list of messages sent. -/
def handleSubmit (wsOpen : Bool) (s : ObserverState) :
    ObserverState × List OutMsg :=
  if s.goal.trim = "" then (s, [])
  else if wsOpen = false then (s, [])
  else ({ s with taskState := "running" }, [.startTask s.goal])

/-- The command `handleCredentialsSubmit` (App.jsx lines 131-136): guard on the socket,
send `CREDENTIALS_PROVIDED` with the current credentials, clear the request
and reset the credential fields. -/
def handleCredentialsSubmit (wsOpen : Bool) (s : ObserverState) :
    ObserverState × List OutMsg :=
  if wsOpen = false then (s, [])
  else
    ({ s with
        credentialsRequest := none
        credentialsData := { username := "", email := "", password := "" } },
      [.credentialsProvided s.credentialsData])

/-- Everything that can change observer state: an inbound message, typing in
the goal input, clicking Launch Task, typing in a credentials field, or
clicking Continue in the credentials modal. -/
inductive Input where
  | msg (m : Msg)
  | setGoal (g : String)
  | submit (wsOpen : Bool)
  | setCredUsername (v : String)
  | setCredEmail (v : String)
  | setCredPassword (v : String)
  | credSubmit (wsOpen : Bool)
deriving DecidableEq

/-- One observer transition. -/
def stepInput (s : ObserverState) (inp : Input) : ObserverState :=
  match inp with
  | .msg m => handleMessage m s
  | .setGoal g => { s with goal := g }
  | .submit w => (handleSubmit w s).1
  | .setCredUsername v =>
    { s with credentialsData := { s.credentialsData with username := v } }
  | .setCredEmail v =>
    { s with credentialsData := { s.credentialsData with email := v } }
  | .setCredPassword v =>
    { s with credentialsData := { s.credentialsData with password := v } }
  | .credSubmit w => (handleCredentialsSubmit w s).1

/-- The observer state after a sequence of inputs from the initial state:
the reachable states are exactly the values of `runInputs`. -/
def runInputs (inputs : List Input) : ObserverState :=
  inputs.foldl stepInput initState

/-- A step is displayed as completed. -/
def isCompleted (st : Step) : Bool := st.status == "completed"

/-- A step is displayed as active. -/
def isActive (st : Step) : Bool := st.status == "active"

/-- Number of steps whose status is `completed`
(`steps.filter((s) => s.status === 'completed').length`,
App.jsx line 37). -/
def completedCount (l : List Step) : Nat :=
  l.countP isCompleted

/-- Number of steps whose status is `active`. -/
def activeCount (l : List Step) : Nat :=
  l.countP isActive

/-- The `progress` memo (App.jsx lines 35-39):
`Math.round((completed / steps.length) * 100)`, and `0` for an empty steps
array.  `Math.round` rounds half toward positive infinity, which is
Mathlib's `round` on `ℚ`. -/
def progress (s : ObserverState) : ℤ :=
  if s.steps.length = 0 then 0
  else round ((completedCount s.steps : ℚ) / (s.steps.length : ℚ) * 100)

/-- The raw fraction completed/total over the steps array (`0` when empty). -/
def progressFrac (s : ObserverState) : ℚ :=
  if s.steps.length = 0 then 0
  else (completedCount s.steps : ℚ) / (s.steps.length : ℚ)

/-- The status of the step at position `j` (`none` when out of range). -/
def statusAt (s : ObserverState) (j : Nat) : Option String :=
  (s.steps.get? j).map Step.status

/-- The `duration_ms` of the step at position `j`, flattened: `some v` iff
the step exists and its `duration_ms` is non-null. -/
def durAt (s : ObserverState) (j : Nat) : Option Int :=
  (s.steps.get? j).bind Step.duration_ms

/-- A concrete navigate step used by witnesses and counterexamples. -/
def navStep : RawStep :=
  { action := "navigate", url := some "https://example.com" }

/-! ### Basic lemmas about the indexed map -/

theorem mapWithIdxFrom_length (f : Nat → Step → Step) :
    ∀ (k : Nat) (l : List Step), (mapWithIdxFrom f k l).length = l.length := by
  intro k l
  induction l generalizing k with
  | nil => rfl
  | cons st rest ih => simp [mapWithIdxFrom, ih]

theorem mapWithIdxFrom_get? (f : Nat → Step → Step) :
    ∀ (l : List Step) (k j : Nat),
      (mapWithIdxFrom f k l).get? j = (l.get? j).map (fun st => f (k + j) st) := by
  intro l
  induction l with
  | nil => intro k j; rfl
  | cons st rest ih =>
    intro k j
    cases j with
    | zero => rfl
    | succ j =>
      simp only [mapWithIdxFrom, List.get?_cons_succ]
      rw [ih (k + 1) j]
      have hk : k + 1 + j = k + (j + 1) := by omega
      rw [hk]

theorem mapWithIdx_get? (f : Nat → Step → Step) (l : List Step) (j : Nat) :
    (mapWithIdx f l).get? j = (l.get? j).map (fun st => f j st) := by
  rw [mapWithIdx, mapWithIdxFrom_get?]
  simp

theorem mapWithIdx_length (f : Nat → Step → Step) (l : List Step) :
    (mapWithIdx f l).length = l.length :=
  mapWithIdxFrom_length f 0 l

/-- Counting under an indexed map whose function preserves the predicate
pointwise. -/
theorem countP_mapWithIdxFrom_eq (p : Step → Bool) (f : Nat → Step → Step)
    (h : ∀ k st, p (f k st) = p st) :
    ∀ (l : List Step) (k : Nat),
      (mapWithIdxFrom f k l).countP p = l.countP p := by
  intro l
  induction l with
  | nil => intro k; rfl
  | cons st rest ih =>
    intro k
    simp [mapWithIdxFrom, List.countP_cons, h, ih]

/-- Counting under an indexed map that only ever turns the predicate on. -/
theorem countP_le_countP_mapWithIdxFrom (p : Step → Bool) (f : Nat → Step → Step)
    (h : ∀ k st, p st = true → p (f k st) = true) :
    ∀ (l : List Step) (k : Nat),
      l.countP p ≤ (mapWithIdxFrom f k l).countP p := by
  intro l
  induction l with
  | nil => intro k; exact Nat.le_refl 0
  | cons st rest ih =>
    intro k
    simp only [mapWithIdxFrom, List.countP_cons]
    by_cases hp : p st = true
    · simp [hp, h k st hp]
      exact ih (k + 1)
    · simp only [Bool.not_eq_true] at hp
      simp [hp]
      by_cases hq : p (f k st) = true
      · simp [hq]
        exact Nat.le_succ_of_le (ih (k + 1))
      · simp only [Bool.not_eq_true] at hq
        simp [hq]
        exact ih (k + 1)

/-- Counting under an indexed map that touches the predicate only at
global index `i`, when the element sitting at `i` keeps the predicate
too. -/
theorem countP_mapWithIdxFrom_eq_at (p : Step → Bool) (f : Nat → Step → Step)
    (i : Nat) (hne : ∀ k st, k ≠ i → p (f k st) = p st) :
    ∀ (l : List Step) (k : Nat),
      (∀ j st, l.get? j = some st → k + j = i → p (f i st) = p st) →
      (mapWithIdxFrom f k l).countP p = l.countP p := by
  intro l
  induction l with
  | nil => intro k _; rfl
  | cons st rest ih =>
    intro k hI
    have hhead : p (f k st) = p st := by
      by_cases hk : k = i
      · subst hk
        exact hI 0 st rfl (Nat.add_zero k)
      · exact hne k st hk
    have htail :
        (mapWithIdxFrom f (k + 1) rest).countP p = rest.countP p := by
      refine ih (k + 1) ?_
      intro j st' hget hsum
      refine hI (j + 1) st' ?_ ?_
      · simpa using hget
      · omega
    simp [mapWithIdxFrom, List.countP_cons, hhead, htail]

/-- After the `STEP_STARTED` update, every step whose index is strictly
below the start index `k` of the map is non-active when `i < k`. -/
theorem activeCount_startedUpdate_high (i : Nat) :
    ∀ (l : List Step) (k : Nat), i < k →
      (mapWithIdxFrom (startedUpdate i) k l).countP isActive = 0 := by
  intro l
  induction l with
  | nil => intro k _; rfl
  | cons st rest ih =>
    intro k hik
    have hhead : isActive (startedUpdate i k st) = false := by
      have hk : k ≠ i := by omega
      simp only [startedUpdate, isActive, hk, if_false]
      by_cases ha : st.status = "active"
      · simp [ha]
      · simp [ha]
    simp [mapWithIdxFrom, List.countP_cons, hhead, ih (k + 1) (by omega)]

/-- After the `STEP_STARTED` update, at most one step is active: only the
position equal to `message.index` can be. -/
theorem activeCount_startedUpdate_le_one (i : Nat) :
    ∀ (l : List Step) (k : Nat),
      (mapWithIdxFrom (startedUpdate i) k l).countP isActive ≤ 1 := by
  intro l
  induction l with
  | nil => intro k; exact Nat.zero_le 1
  | cons st rest ih =>
    intro k
    by_cases hk : k = i
    · subst hk
      have hhead : isActive (startedUpdate k k st) = true := by
        simp [startedUpdate, isActive]
      have htail :
          (mapWithIdxFrom (startedUpdate k) (k + 1) rest).countP isActive = 0 :=
        activeCount_startedUpdate_high k rest (k + 1) (by omega)
      simp [mapWithIdxFrom, List.countP_cons, hhead, htail]
    · have hhead : isActive (startedUpdate i k st) = false := by
        simp only [startedUpdate, isActive, hk, if_false]
        by_cases ha : st.status = "active"
        · simp [ha]
        · simp [ha]
      simp [mapWithIdxFrom, List.countP_cons, hhead, ih (k + 1)]

/-- Counting under an indexed map that only ever turns the predicate off. -/
theorem countP_mapWithIdxFrom_le (p : Step → Bool) (f : Nat → Step → Step)
    (h : ∀ k st, p (f k st) = true → p st = true) :
    ∀ (l : List Step) (k : Nat),
      (mapWithIdxFrom f k l).countP p ≤ l.countP p := by
  intro l
  induction l with
  | nil => intro k; exact Nat.le_refl 0
  | cons st rest ih =>
    intro k
    simp only [mapWithIdxFrom, List.countP_cons]
    by_cases hq : p (f k st) = true
    · simp [hq, h k st hq]
      exact ih (k + 1)
    · simp only [Bool.not_eq_true] at hq
      simp only [hq, Bool.false_eq_true, if_false, Nat.add_zero]
      refine Nat.le_trans (ih (k + 1)) ?_
      by_cases hp : p st = true
      · simp [hp]
      · simp only [Bool.not_eq_true] at hp
        simp [hp]

/-- A freshly enriched plan has no active step. -/
theorem activeCount_enrich (rs : List RawStep) :
    (rs.map enrich).countP isActive = 0 := by
  rw [List.countP_eq_zero]
  intro st hst
  rcases List.mem_map.1 hst with ⟨r, _, rfl⟩
  simp [enrich, isActive]

/-- The command `handleSubmit` never touches the steps array. -/
theorem handleSubmit_fst_steps (w : Bool) (s : ObserverState) :
    (handleSubmit w s).1.steps = s.steps := by
  unfold handleSubmit
  by_cases h1 : s.goal.trim = "" <;> by_cases h2 : w = false <;> simp [h1, h2]

/-- The command `handleCredentialsSubmit` never touches the steps array. -/
theorem handleCredentialsSubmit_fst_steps (w : Bool) (s : ObserverState) :
    (handleCredentialsSubmit w s).1.steps = s.steps := by
  unfold handleCredentialsSubmit
  by_cases h2 : w = false <;> simp [h2]

/-- One observer transition preserves "at most one active step". -/
theorem activeCount_stepInput_le (s : ObserverState) (inp : Input)
    (h : (activeCount s.steps) ≤ 1) :
    activeCount (stepInput s inp).steps ≤ 1 := by
  cases inp with
  | msg m =>
    cases m with
    | taskStarted steps? =>
      cases steps? with
      | some rs =>
        simp only [stepInput, handleMessage, activeCount]
        exact Nat.le_trans (Nat.le_of_eq (activeCount_enrich rs)) (Nat.zero_le 1)
      | none => simpa [stepInput, handleMessage, activeCount] using h
    | stepStarted i =>
      simp only [stepInput, handleMessage, activeCount, mapWithIdx]
      exact activeCount_startedUpdate_le_one i s.steps 0
    | stepCompleted i d =>
      simp only [stepInput, handleMessage, activeCount, mapWithIdx]
      refine Nat.le_trans (countP_mapWithIdxFrom_le _ _ ?_ s.steps 0) h
      intro k st hp
      by_cases hk : k = i
      · simp [completedUpdate, hk, isActive] at hp
      · simpa [completedUpdate, hk] using hp
    | stepFailed i d e =>
      simp only [stepInput, handleMessage, activeCount, mapWithIdx]
      refine Nat.le_trans (countP_mapWithIdxFrom_le _ _ ?_ s.steps 0) h
      intro k st hp
      by_cases hk : k = i
      · simp [failedUpdate, hk, isActive] at hp
      · simpa [failedUpdate, hk] using hp
    | taskCompleted => simpa [stepInput, handleMessage, activeCount] using h
    | browserFrame img src => simpa [stepInput, handleMessage, activeCount] using h
    | log entry => simpa [stepInput, handleMessage, activeCount] using h
    | priceResults p => simpa [stepInput, handleMessage, activeCount] using h
    | credentialsRequired f => simpa [stepInput, handleMessage, activeCount] using h
    | other t => simpa [stepInput, handleMessage, activeCount] using h
  | setGoal g => simpa [stepInput, activeCount] using h
  | submit w =>
    simpa [stepInput, activeCount, handleSubmit_fst_steps] using h
  | setCredUsername v => simpa [stepInput, activeCount] using h
  | setCredEmail v => simpa [stepInput, activeCount] using h
  | setCredPassword v => simpa [stepInput, activeCount] using h
  | credSubmit w =>
    simpa [stepInput, activeCount, handleCredentialsSubmit_fst_steps] using h

/-- Auxiliary fold form of the single-active-step invariant. -/
theorem activeCount_foldl_le (inputs : List Input) :
    ∀ (s : ObserverState), activeCount s.steps ≤ 1 →
      activeCount (List.foldl stepInput s inputs).steps ≤ 1 := by
  induction inputs with
  | nil => intro s h; simpa using h
  | cons inp rest ih =>
    intro s h
    simpa [List.foldl] using ih (stepInput s inp) (activeCount_stepInput_le s inp h)

/-- C2: at most one step is Active at any time.  For every sequence of
inputs (all inbound messages and user commands) processed from the initial
observer state, the resulting steps array contains at most one step with
status "active". -/
theorem c2_at_most_one_active (inputs : List Input) :
    activeCount (runInputs inputs).steps ≤ 1 := by
  have hinit : activeCount initState.steps ≤ 1 := by decide
  simpa [runInputs] using activeCount_foldl_le inputs initState hinit

/-- Spec-level characterization of how one inbound message transforms the
status of the step at position `j` (the amended step-status transition
relation): `STEP_STARTED i` makes step `i` active whatever its prior status
and demotes any other active step to pending; `STEP_COMPLETED i` /
`STEP_FAILED i` set step `i` to completed / failed whatever its prior
status; `TASK_STARTED` with a plan resets every step to pending; no other
message changes any status. -/
def statusSpec (m : Msg) (s : ObserverState) (j : Nat) : Option String :=
  match m with
  | .taskStarted (some rs) => if j < rs.length then some "pending" else none
  | .stepStarted i =>
    (statusAt s j).map (fun st =>
      if j = i then "active" else if st = "active" then "pending" else st)
  | .stepCompleted i _ =>
    (statusAt s j).map (fun st => if j = i then "completed" else st)
  | .stepFailed i _ _ =>
    (statusAt s j).map (fun st => if j = i then "failed" else st)
  | _ => statusAt s j

/-- C1 (amended): the full step-status transition table of the message
handler.  Statuses can revert (active back to pending when another step
starts, completed or failed back to active when the same index starts
again), exactly as `statusSpec` describes. -/
theorem c1_status_transition (m : Msg) (s : ObserverState) (j : Nat) :
    statusAt (handleMessage m s) j = statusSpec m s j := by
  cases m with
  | taskStarted steps? =>
    cases steps? with
    | some rs =>
      simp only [handleMessage, statusAt, statusSpec, List.get?_map]
      by_cases hj : j < rs.length
      · rw [List.get?_eq_get hj]
        simp [enrich, hj]
      · rw [List.get?_eq_none.2 (Nat.le_of_not_lt hj)]
        simp [hj]
    | none => rfl
  | stepStarted i =>
    simp only [handleMessage, statusAt, statusSpec, mapWithIdx_get?]
    cases s.steps.get? j with
    | none => rfl
    | some st => rfl
  | stepCompleted i d =>
    simp only [handleMessage, statusAt, statusSpec, mapWithIdx_get?]
    cases s.steps.get? j with
    | none => rfl
    | some st =>
      by_cases hj : j = i <;> simp [completedUpdate, hj]
  | stepFailed i d e =>
    simp only [handleMessage, statusAt, statusSpec, mapWithIdx_get?]
    cases s.steps.get? j with
    | none => rfl
    | some st =>
      by_cases hj : j = i <;> simp [failedUpdate, hj]
  | taskCompleted => rfl
  | browserFrame img src => rfl
  | log entry => rfl
  | priceResults p => rfl
  | credentialsRequired f => rfl
  | other t => rfl

/-- C1 (counterexample): from the reachable state in which step 0 is
active, processing `STEP_STARTED 1` moves step 0 from active back to
pending — the claimed "never reverts" property fails. -/
theorem c1_counterexample :
    statusAt (runInputs
      [.msg (.taskStarted (some [navStep, navStep])), .msg (.stepStarted 0)]) 0
      = some "active"
    ∧ statusAt (handleMessage (.stepStarted 1) (runInputs
      [.msg (.taskStarted (some [navStep, navStep])), .msg (.stepStarted 0)])) 0
      = some "pending" := by
  constructor <;> decide

/-- Spec-level characterization of the next `taskState` after one input:
`TASK_STARTED` and an accepted submit set it to "running" (from any prior
value, including "completed"), `TASK_COMPLETED` sets it to "completed", and
nothing else changes it.  The values "planning" and "failed" never occur. -/
def taskStateSpec (s : ObserverState) (inp : Input) : String :=
  match inp with
  | .msg (.taskStarted _) => "running"
  | .msg .taskCompleted => "completed"
  | .submit w => if s.goal.trim ≠ "" ∧ w = true then "running" else s.taskState
  | _ => s.taskState

/-- One observer transition moves `taskState` exactly as `taskStateSpec`
says. -/
theorem stepInput_taskState (s : ObserverState) (inp : Input) :
    (stepInput s inp).taskState = taskStateSpec s inp := by
  cases inp with
  | msg m =>
    cases m with
    | taskStarted steps? => cases steps? with
      | some rs => rfl
      | none => rfl
    | stepStarted i => rfl
    | stepCompleted i d => rfl
    | stepFailed i d e => rfl
    | taskCompleted => rfl
    | browserFrame img src => rfl
    | log entry => rfl
    | priceResults p => rfl
    | credentialsRequired f => rfl
    | other t => rfl
  | setGoal g => rfl
  | submit w =>
    simp only [stepInput, handleSubmit, taskStateSpec]
    by_cases h1 : s.goal.trim = "" <;> by_cases h2 : w = false <;> simp_all
  | setCredUsername v => rfl
  | setCredEmail v => rfl
  | setCredPassword v => rfl
  | credSubmit w =>
    simp only [stepInput, handleCredentialsSubmit, taskStateSpec]
    by_cases h2 : w = false <;> simp [h2]

/-- The only values `taskState` ever takes along any run. -/
theorem taskState_range_foldl (inputs : List Input) :
    ∀ (s : ObserverState),
      (s.taskState = "idle" ∨ s.taskState = "running" ∨ s.taskState = "completed") →
      ((List.foldl stepInput s inputs).taskState = "idle" ∨
        (List.foldl stepInput s inputs).taskState = "running" ∨
        (List.foldl stepInput s inputs).taskState = "completed") := by
  induction inputs with
  | nil => intro s h; simpa using h
  | cons inp rest ih =>
    intro s h
    refine ih (stepInput s inp) ?_
    rw [stepInput_taskState]
    cases inp with
    | msg m =>
      cases m with
      | taskStarted steps? => simp [taskStateSpec]
      | stepStarted i => simpa [taskStateSpec] using h
      | stepCompleted i d => simpa [taskStateSpec] using h
      | stepFailed i d e => simpa [taskStateSpec] using h
      | taskCompleted => simp [taskStateSpec]
      | browserFrame img src => simpa [taskStateSpec] using h
      | log entry => simpa [taskStateSpec] using h
      | priceResults p => simpa [taskStateSpec] using h
      | credentialsRequired f => simpa [taskStateSpec] using h
      | other t => simpa [taskStateSpec] using h
    | setGoal g => simpa [taskStateSpec] using h
    | submit w =>
      simp only [taskStateSpec]
      by_cases hc : s.goal.trim ≠ "" ∧ w = true
      · simp [hc]
      · simpa [hc] using h
    | setCredUsername v => simpa [taskStateSpec] using h
    | setCredEmail v => simpa [taskStateSpec] using h
    | setCredPassword v => simpa [taskStateSpec] using h
    | credSubmit w => simpa [taskStateSpec] using h

/-- C3 (amended): `taskState` follows exactly the transition table
`taskStateSpec` — it is set to "running" by `TASK_STARTED` or an accepted
submit (also from "completed", starting a new run), to "completed" by
`TASK_COMPLETED`, and is otherwise untouched; along every run it only takes
the values "idle", "running", "completed" ("planning" and "failed" are never
entered). -/
theorem c3_taskState_transition :
    (∀ (s : ObserverState) (inp : Input),
      (stepInput s inp).taskState = taskStateSpec s inp)
    ∧ (∀ inputs : List Input,
      (runInputs inputs).taskState = "idle" ∨
        (runInputs inputs).taskState = "running" ∨
        (runInputs inputs).taskState = "completed") := by
  constructor
  · exact stepInput_taskState
  · intro inputs
    exact taskState_range_foldl inputs initState (Or.inl rfl)

/-- C3 (counterexample): from the reachable state with `taskState`
"completed", processing a further `TASK_STARTED` message moves the task
state back to "running" — a transition out of Completed, contradicting the
claim. -/
theorem c3_counterexample :
    (runInputs [.msg (.taskStarted none), .msg .taskCompleted]).taskState
      = "completed"
    ∧ (handleMessage (.taskStarted none)
        (runInputs [.msg (.taskStarted none), .msg .taskCompleted])).taskState
      = "running" := by
  constructor <;> rfl

/-- The spec's wording of the progress formula:
`round(100 * completedSteps / totalSteps)`, and `0` for an empty plan. -/
def progressOfSpec (s : ObserverState) : ℤ :=
  if s.steps = [] then 0
  else round ((100 * (completedCount s.steps : ℚ)) / (s.steps.length : ℚ))

/-- C4: the displayed progress percentage equals
`round(100 * completed / total)` and equals `0` when the steps list is
empty — the code's `Math.round((completed / steps.length) * 100)` agrees
with the spec's formula on every state. -/
theorem c4_progress_spec (s : ObserverState) :
    progress s = progressOfSpec s := by
  unfold progress progressOfSpec
  by_cases h : s.steps = []
  · simp [h]
  · have hlen : s.steps.length ≠ 0 := fun hh => h (List.length_eq_zero.1 hh)
    rw [if_neg hlen, if_neg h]
    congr 1
    ring

/-- Rounding is monotone on `ℚ`. -/
theorem round_le_round_q (x y : ℚ) (h : x ≤ y) : round x ≤ round y := by
  rw [round_eq, round_eq]
  exact Int.floor_le_floor (by linarith)

/-- Both progress readings are monotone in the completed count when the
number of steps does not change. -/
theorem progress_mono_of_counts (s s' : ObserverState)
    (hlen : s'.steps.length = s.steps.length)
    (hc : completedCount s.steps ≤ completedCount s'.steps) :
    progressFrac s ≤ progressFrac s' ∧ progress s ≤ progress s' := by
  by_cases hz : s.steps.length = 0
  · unfold progressFrac progress
    rw [hlen, hz]
    simp
  · have hz' : s'.steps.length ≠ 0 := by rw [hlen]; exact hz
    have hpos : (0 : ℚ) < (s.steps.length : ℚ) := by
      exact_mod_cast Nat.pos_of_ne_zero hz
    have hfrac : (completedCount s.steps : ℚ) / (s.steps.length : ℚ) ≤
        (completedCount s'.steps : ℚ) / (s'.steps.length : ℚ) := by
      rw [hlen]
      exact div_le_div_of_nonneg_right (by exact_mod_cast hc) hpos.le
    constructor
    · unfold progressFrac
      rw [if_neg hz, if_neg hz']
      exact hfrac
    · unfold progress
      rw [if_neg hz, if_neg hz']
      exact round_le_round_q _ _
        (mul_le_mul_of_nonneg_right hfrac (by norm_num))

/-- Whether a message is `TASK_STARTED` (a new run). -/
def isTaskStartedMsg : Msg → Bool
  | .taskStarted _ => true
  | _ => false

/-- Whether a message re-targets a currently completed step: a
`STEP_STARTED` or `STEP_FAILED` whose index points at a step whose status
is "completed".  Exactly these messages can pull the completed count
down. -/
def demotesCompleted (m : Msg) (s : ObserverState) : Bool :=
  match m with
  | .stepStarted i => statusAt s i == some "completed"
  | .stepFailed i _ _ => statusAt s i == some "completed"
  | _ => false

/-- Message `STEP_STARTED i` keeps the completed count when step `i` is not
currently completed. -/
theorem completedCount_startedUpdate (i : Nat) (s : ObserverState)
    (h : statusAt s i ≠ some "completed") :
    (mapWithIdx (startedUpdate i) s.steps).countP isCompleted
      = s.steps.countP isCompleted := by
  unfold mapWithIdx
  refine countP_mapWithIdxFrom_eq_at isCompleted (startedUpdate i) i ?_
    s.steps 0 ?_
  · intro k st hk
    simp only [startedUpdate, isCompleted, hk, if_false]
    by_cases ha : st.status = "active"
    · simp [ha]
    · simp [ha]
  · intro j st hget hsum
    have hj : j = i := by omega
    subst hj
    have hst : st.status ≠ "completed" := by
      intro hc
      refine h ?_
      simp only [statusAt, hget, Option.map_some']
      rw [hc]
    simp [startedUpdate, isCompleted, hst]

/-- Message `STEP_FAILED i` keeps the completed count when step `i` is not
currently completed. -/
theorem completedCount_failedUpdate (i : Nat) (d : Option Int)
    (e : Option String) (s : ObserverState)
    (h : statusAt s i ≠ some "completed") :
    (mapWithIdx (failedUpdate i d e) s.steps).countP isCompleted
      = s.steps.countP isCompleted := by
  unfold mapWithIdx
  refine countP_mapWithIdxFrom_eq_at isCompleted (failedUpdate i d e) i ?_
    s.steps 0 ?_
  · intro k st hk
    simp [failedUpdate, hk]
  · intro j st hget hsum
    have hj : j = i := by omega
    subst hj
    have hst : st.status ≠ "completed" := by
      intro hc
      refine h ?_
      simp only [statusAt, hget, Option.map_some']
      rw [hc]
    simp [failedUpdate, isCompleted, hst]

/-- C5 (amended): within a run, processing any inbound message other than
`TASK_STARTED` never decreases the displayed progress — except when the
message is a `STEP_STARTED` or `STEP_FAILED` that names a currently
completed step (`demotesCompleted`), which pulls the completed count back
down.  Both the raw fraction completed/total and the rounded percentage are
non-decreasing under every other message. -/
theorem c5_progress_monotone (m : Msg) (s : ObserverState)
    (h1 : isTaskStartedMsg m = false)
    (h2 : demotesCompleted m s = false) :
    progressFrac s ≤ progressFrac (handleMessage m s)
    ∧ progress s ≤ progress (handleMessage m s) := by
  cases m with
  | taskStarted steps? => simp [isTaskStartedMsg] at h1
  | stepStarted i =>
    have h2' : statusAt s i ≠ some "completed" := by
      simpa [demotesCompleted] using h2
    refine progress_mono_of_counts s _ ?_ ?_
    · simp [handleMessage, mapWithIdx, mapWithIdxFrom_length]
    · exact Nat.le_of_eq (completedCount_startedUpdate i s h2').symm
  | stepCompleted i d =>
    refine progress_mono_of_counts s _ ?_ ?_
    · simp [handleMessage, mapWithIdx, mapWithIdxFrom_length]
    · refine countP_le_countP_mapWithIdxFrom isCompleted _ ?_ s.steps 0
      intro k st hp
      by_cases hk : k = i
      · simp [completedUpdate, hk, isCompleted]
      · simpa [completedUpdate, hk] using hp
  | stepFailed i d e =>
    have h2' : statusAt s i ≠ some "completed" := by
      simpa [demotesCompleted] using h2
    refine progress_mono_of_counts s _ ?_ ?_
    · simp [handleMessage, mapWithIdx, mapWithIdxFrom_length]
    · exact Nat.le_of_eq (completedCount_failedUpdate i d e s h2').symm
  | taskCompleted => exact progress_mono_of_counts s _ rfl (Nat.le_refl _)
  | browserFrame img src => exact progress_mono_of_counts s _ rfl (Nat.le_refl _)
  | log entry => exact progress_mono_of_counts s _ rfl (Nat.le_refl _)
  | priceResults p => exact progress_mono_of_counts s _ rfl (Nat.le_refl _)
  | credentialsRequired f => exact progress_mono_of_counts s _ rfl (Nat.le_refl _)
  | other t => exact progress_mono_of_counts s _ rfl (Nat.le_refl _)

/-- C5 (witness): the monotonicity theorem applied at a concrete state — a
one-step plan in which `STEP_COMPLETED 0` raises progress. -/
theorem c5_progress_monotone_witness :
    progressFrac (runInputs [.msg (.taskStarted (some [navStep]))])
      ≤ progressFrac (handleMessage (.stepCompleted 0 (some 5))
          (runInputs [.msg (.taskStarted (some [navStep]))]))
    ∧ progress (runInputs [.msg (.taskStarted (some [navStep]))])
      ≤ progress (handleMessage (.stepCompleted 0 (some 5))
          (runInputs [.msg (.taskStarted (some [navStep]))])) :=
  c5_progress_monotone (.stepCompleted 0 (some 5))
    (runInputs [.msg (.taskStarted (some [navStep]))]) (by decide) (by decide)

/-- C5 (counterexample): with a completed one-step plan (progress 100%),
the message `STEP_FAILED 0` — not a `TASK_STARTED`, so still within the
same run — drops progress back to 0: progress is not monotone. -/
theorem c5_counterexample :
    progressFrac (handleMessage (.stepFailed 0 none none)
        (runInputs [.msg (.taskStarted (some [navStep])),
          .msg (.stepCompleted 0 none)]))
      < progressFrac (runInputs [.msg (.taskStarted (some [navStep])),
          .msg (.stepCompleted 0 none)])
    ∧ progress (handleMessage (.stepFailed 0 none none)
        (runInputs [.msg (.taskStarted (some [navStep])),
          .msg (.stepCompleted 0 none)]))
      < progress (runInputs [.msg (.taskStarted (some [navStep])),
          .msg (.stepCompleted 0 none)]) := by
  have hc1 : completedCount (runInputs [.msg (.taskStarted (some [navStep])),
      .msg (.stepCompleted 0 none)]).steps = 1 := by decide
  have hl1 : (runInputs [.msg (.taskStarted (some [navStep])),
      .msg (.stepCompleted 0 none)]).steps.length = 1 := by decide
  have hc0 : completedCount (handleMessage (.stepFailed 0 none none)
      (runInputs [.msg (.taskStarted (some [navStep])),
        .msg (.stepCompleted 0 none)])).steps = 0 := by decide
  have hl0 : (handleMessage (.stepFailed 0 none none)
      (runInputs [.msg (.taskStarted (some [navStep])),
        .msg (.stepCompleted 0 none)])).steps.length = 1 := by decide
  constructor
  · unfold progressFrac
    rw [hc1, hl1, hc0, hl0]
    norm_num
  · unfold progress
    rw [hc1, hl1, hc0, hl0]
    norm_num [round_eq]

/-- C6: an inbound message whose `type` is none of the nine handled kinds
falls through every branch of `ws.onmessage` and leaves the whole observer
state — steps, taskState, activeIndex, frame, frameSource, logs,
priceResults, credentialsRequest, and everything else — unchanged; in
particular a running task remains running. -/
theorem c6_unknown_message_noop (t : String) (s : ObserverState) :
    handleMessage (.other t) s = s := rfl

/-- The input carries `v` as the `duration_ms` of a `STEP_COMPLETED` or
`STEP_FAILED` message. -/
def carriesDur (inp : Input) (v : Int) : Prop :=
  ∃ i, inp = .msg (.stepCompleted i (some v))
    ∨ ∃ e, inp = .msg (.stepFailed i (some v) e)

/-- A single transition only yields a non-null `duration_ms` that was
already stored or that the message itself carried. -/
theorem durAt_stepInput (s : ObserverState) (inp : Input) (j : Nat) (v : Int)
    (h : durAt (stepInput s inp) j = some v) :
    durAt s j = some v ∨ carriesDur inp v := by
  cases inp with
  | msg m =>
    cases m with
    | taskStarted steps? =>
      cases steps? with
      | some rs =>
        simp only [stepInput, handleMessage, durAt] at h
        rw [List.get?_map] at h
        cases hh : rs.get? j with
        | none => rw [hh] at h; simp at h
        | some r => rw [hh] at h; simp [enrich] at h
      | none => exact Or.inl h
    | stepStarted i =>
      left
      simp only [stepInput, handleMessage, durAt, mapWithIdx_get?] at h
      cases hh : s.steps.get? j with
      | none => rw [hh] at h; simp at h
      | some st =>
        rw [hh] at h
        simp only [Option.map_some', Option.some_bind] at h
        simp only [durAt, hh, Option.some_bind]
        exact h
    | stepCompleted i d =>
      simp only [stepInput, handleMessage, durAt, mapWithIdx_get?] at h
      cases hh : s.steps.get? j with
      | none => rw [hh] at h; simp at h
      | some st =>
        rw [hh] at h
        simp only [Option.map_some', Option.some_bind] at h
        by_cases hj : j = i
        · right
          rw [hj] at h
          simp [completedUpdate] at h
          exact ⟨i, Or.inl (by rw [h])⟩
        · left
          simp only [completedUpdate, hj, if_false] at h
          simp only [durAt, hh, Option.some_bind]
          exact h
    | stepFailed i d e =>
      simp only [stepInput, handleMessage, durAt, mapWithIdx_get?] at h
      cases hh : s.steps.get? j with
      | none => rw [hh] at h; simp at h
      | some st =>
        rw [hh] at h
        simp only [Option.map_some', Option.some_bind] at h
        by_cases hj : j = i
        · right
          rw [hj] at h
          simp [failedUpdate] at h
          exact ⟨i, Or.inr ⟨e, by rw [h]⟩⟩
        · left
          simp only [failedUpdate, hj, if_false] at h
          simp only [durAt, hh, Option.some_bind]
          exact h
    | taskCompleted => exact Or.inl h
    | browserFrame img src => exact Or.inl h
    | log entry => exact Or.inl h
    | priceResults p => exact Or.inl h
    | credentialsRequired f => exact Or.inl h
    | other t => exact Or.inl h
  | setGoal g => exact Or.inl h
  | submit w =>
    left
    simp only [stepInput, durAt, handleSubmit_fst_steps] at h
    exact h
  | setCredUsername v' => exact Or.inl h
  | setCredEmail v' => exact Or.inl h
  | setCredPassword v' => exact Or.inl h
  | credSubmit w =>
    left
    simp only [stepInput, durAt, handleCredentialsSubmit_fst_steps] at h
    exact h

/-- Fold form: every stored `duration_ms` along a run was carried by some
processed terminal-step message. -/
theorem durAt_foldl (inputs : List Input) :
    ∀ (s : ObserverState) (j : Nat) (v : Int),
      durAt (List.foldl stepInput s inputs) j = some v →
      durAt s j = some v ∨ ∃ inp ∈ inputs, carriesDur inp v := by
  induction inputs with
  | nil => intro s j v h; exact Or.inl (by simpa using h)
  | cons inp rest ih =>
    intro s j v h
    rcases ih (stepInput s inp) j v (by simpa using h) with h' | ⟨inp', hmem, hc⟩
    · rcases durAt_stepInput s inp j v h' with h'' | hc
      · exact Or.inl h''
      · exact Or.inr ⟨inp, List.mem_cons_self inp rest, hc⟩
    · exact Or.inr ⟨inp', List.mem_cons_of_mem inp hmem, hc⟩

/-- C7 (amended): a non-null `duration_ms` in any reachable observer state
was carried by some processed `STEP_COMPLETED` or `STEP_FAILED` message
(so durations are ≥ 0 whenever every processed terminal-step message
carries a non-negative duration).  The value persists across later status
changes, so it can also sit on a step whose status has reverted to a
non-terminal value — which is why the original "only on terminal statuses"
phrasing fails. -/
theorem c7_duration_origin (inputs : List Input) (j : Nat) (v : Int)
    (h : durAt (runInputs inputs) j = some v) :
    (∃ inp ∈ inputs, carriesDur inp v)
    ∧ ((∀ inp ∈ inputs, ∀ w : Int, carriesDur inp w → 0 ≤ w) → 0 ≤ v) := by
  rcases durAt_foldl inputs initState j v (by simpa [runInputs] using h) with
    hbad | hex
  · simp [durAt, initState] at hbad
  · refine ⟨hex, ?_⟩
    rcases hex with ⟨inp, hmem, hc⟩
    intro hnn
    exact hnn inp hmem v hc

/-- C7 (witness): the origin theorem applied to the concrete run that
completes step 0 with duration 5. -/
theorem c7_duration_origin_witness :
    ∃ inp ∈ [Input.msg (.taskStarted (some [navStep])),
      Input.msg (.stepCompleted 0 (some 5))], carriesDur inp 5 :=
  (c7_duration_origin
    [.msg (.taskStarted (some [navStep])), .msg (.stepCompleted 0 (some 5))]
    0 5 (by decide)).1

/-- C7 (counterexample): after `TASK_STARTED`, `STEP_COMPLETED 0` (duration
5) and `STEP_STARTED 0`, step 0 is "active" — a non-terminal status — yet
its `duration_ms` is still non-null: the claim that `duration_ms` is
non-null only on terminal statuses fails on a reachable state. -/
theorem c7_counterexample :
    statusAt (runInputs [.msg (.taskStarted (some [navStep])),
      .msg (.stepCompleted 0 (some 5)), .msg (.stepStarted 0)]) 0
      = some "active"
    ∧ durAt (runInputs [.msg (.taskStarted (some [navStep])),
      .msg (.stepCompleted 0 (some 5)), .msg (.stepStarted 0)]) 0
      = some 5 := by
  constructor <;> decide

/-- C8: processing `TASK_STARTED` with a steps list enters the initial-plan
state: `taskState` is "running", no step is active (`activeIndex` is null),
and each stored step is the raw step enriched with status "pending",
null `duration_ms`, and the description built from its action and params by
`buildDescription`. -/
theorem c8_task_started_init (rs : List RawStep) (s : ObserverState) :
    (handleMessage (.taskStarted (some rs)) s).taskState = "running"
    ∧ (handleMessage (.taskStarted (some rs)) s).activeIndex = none
    ∧ (handleMessage (.taskStarted (some rs)) s).steps.length = rs.length
    ∧ ∀ (j : Nat) (r : RawStep), rs.get? j = some r →
        (handleMessage (.taskStarted (some rs)) s).steps.get? j =
          some { raw := r, status := "pending",
                 description := buildDescription r,
                 duration_ms := none, error := none } := by
  refine ⟨rfl, rfl, by simp [handleMessage], ?_⟩
  intro j r hget
  simp only [handleMessage]
  rw [List.get?_map, hget]
  rfl

/-- C8 (witness): the initial-plan theorem applied to a one-step plan. -/
theorem c8_task_started_init_witness :
    (handleMessage (.taskStarted (some [navStep])) initState).steps.get? 0 =
      some { raw := navStep, status := "pending",
             description := buildDescription navStep,
             duration_ms := none, error := none } :=
  (c8_task_started_init [navStep] initState).2.2.2 0 navStep rfl

/-- C9: submitting credentials over an open socket sends exactly one
`CREDENTIALS_PROVIDED` message carrying the current credentials, clears
`credentialsRequest` to null (so the modal closes and the same request
cannot be submitted twice), and resets all three credential fields to the
empty string, leaving no secrets in observer state. -/
theorem c9_credentials_submit (s : ObserverState) :
    (handleCredentialsSubmit true s).2
      = [OutMsg.credentialsProvided s.credentialsData]
    ∧ (handleCredentialsSubmit true s).1.credentialsRequest = none
    ∧ (handleCredentialsSubmit true s).1.credentialsData
      = { username := "", email := "", password := "" }
    ∧ (handleCredentialsSubmit true s).1
      = { s with
          credentialsRequest := none
          credentialsData := { username := "", email := "", password := "" } } :=
  ⟨rfl, rfl, rfl, rfl⟩

/-- C10: `handleSubmit` sends `START_TASK` (with the untrimmed goal) and
sets the task state to "running" exactly when the goal is non-blank after
trimming and the socket is open; otherwise it sends nothing and leaves the
state untouched. -/
theorem c10_submit_spec (w : Bool) (s : ObserverState) :
    handleSubmit w s =
      if s.goal.trim ≠ "" ∧ w = true
      then ({ s with taskState := "running" }, [OutMsg.startTask s.goal])
      else (s, []) := by
  cases w <;> by_cases h1 : s.goal.trim = "" <;> simp [handleSubmit, h1]
